import Mathlib

/-!
Verification development for the `altair_tiles` repository (tile-grid
planner for Altair charts).  The Python sources
`src/altair_tiles/__init__.py` and `src/altair_basemaps/__init__.py` are
shallowly embedded below: pure functions become Lean functions, raised
exceptions become `Except` errors, Python's dynamically typed `zoom`
argument becomes the inductive `PyZoom`, and the floating-point
latitude-to-Mercator-fraction map (the only transcendental computation,
living in the external `mercantile` dependency) is abstracted as a
function parameter `latY : Frac → Frac` while all remaining arithmetic is
done exactly over `Frac` (rational numbers as numerator/denominator pairs
of integers, kept unnormalized so that every operation reduces inside the
Lean kernel) and `ℤ`.  The `Frac.toRat` lemmas below certify that the
`Frac` operations agree with `ℚ` arithmetic on fractions with positive
denominators, which every `Frac` built here has.
-/

namespace AltairTiles

/-- An exact rational number, represented as an unnormalized
numerator/denominator pair.  All fractions constructed by the embedding
have positive denominators. -/
structure Frac where
  num : ℤ
  den : ℤ
deriving DecidableEq

namespace Frac

/-- The integer `n` as a fraction. -/
def ofInt (n : ℤ) : Frac := ⟨n, 1⟩

instance (n : ℕ) : OfNat Frac n := ⟨ofInt n⟩

/-- Negation. -/
def neg (a : Frac) : Frac := ⟨-a.num, a.den⟩

instance : Neg Frac := ⟨neg⟩

/-- Addition by cross-multiplication. -/
def add (a b : Frac) : Frac := ⟨a.num * b.den + b.num * a.den, a.den * b.den⟩

instance : Add Frac := ⟨add⟩

/-- Subtraction by cross-multiplication. -/
def sub (a b : Frac) : Frac := ⟨a.num * b.den - b.num * a.den, a.den * b.den⟩

instance : Sub Frac := ⟨sub⟩

/-- Multiplication. -/
def mul (a b : Frac) : Frac := ⟨a.num * b.num, a.den * b.den⟩

instance : Mul Frac := ⟨mul⟩

/-- Division, keeping the denominator positive.  Only ever applied to a
nonzero divisor by the embedding. -/
def div (a b : Frac) : Frac :=
  if 0 ≤ b.num then ⟨a.num * b.den, a.den * b.num⟩
  else ⟨-(a.num * b.den), a.den * (-b.num)⟩

instance : Div Frac := ⟨div⟩

/-- Comparison by cross-multiplication (correct for positive
denominators). -/
def le (a b : Frac) : Prop := a.num * b.den ≤ b.num * a.den

instance : LE Frac := ⟨le⟩

/-- Strict comparison by cross-multiplication (correct for positive
denominators). -/
def lt (a b : Frac) : Prop := a.num * b.den < b.num * a.den

instance : LT Frac := ⟨lt⟩

instance (a b : Frac) : Decidable (a ≤ b) :=
  inferInstanceAs (Decidable (a.num * b.den ≤ b.num * a.den))

instance (a b : Frac) : Decidable (a < b) :=
  inferInstanceAs (Decidable (a.num * b.den < b.num * a.den))

instance : Min Frac := ⟨fun a b => if a ≤ b then a else b⟩

instance : Max Frac := ⟨fun a b => if a ≤ b then b else a⟩

/-- `math.floor` (correct for positive denominators). -/
def floor (a : Frac) : ℤ := Int.fdiv a.num a.den

/-- `math.pow(2, z)` for an integer `z`, exactly. -/
def pow2 (z : ℤ) : Frac :=
  if 0 ≤ z then ⟨2 ^ z.toNat, 1⟩ else ⟨1, 2 ^ (-z).toNat⟩

/-- The rational value a `Frac` denotes. -/
def toRat (a : Frac) : ℚ := (a.num : ℚ) / (a.den : ℚ)

end Frac

/-- Python `int()` applied to a fraction: truncation toward zero (correct
for positive denominators). -/
def pyInt (q : Frac) : ℤ :=
  Int.tdiv q.num q.den

/-- A slippy-map tile index, as `mercantile.Tile(x, y, z)`. -/
structure Tile where
  x : ℤ
  y : ℤ
  z : ℤ
deriving DecidableEq

/-- `mercantile.LL_EPSILON = 1e-11`. -/
def LL_EPSILON : Frac := ⟨1, 10 ^ 11⟩

/-- `mercantile.EPSILON = 1e-14`. -/
def EPSILON : Frac := ⟨1, 10 ^ 14⟩

/-- The Web-Mercator latitude limit `85.051129` used by `mercantile.tiles`
for clamping. -/
def mercLimit : Frac := ⟨85051129, 10 ^ 6⟩

/-- `mercantile.tile(lng, lat, zoom)`: the tile containing a longitude and
latitude.  The longitude fraction is `lng / 360 + 0.5` exactly as in
`mercantile._xy`; the latitude fraction (the transcendental part of
`mercantile._xy`) is supplied by the abstract parameter `latY`. -/
def tile (latY : Frac → Frac) (lng lat : Frac) (zoom : ℤ) : Tile :=
  let x : Frac := lng / 360 + 1 / 2
  let y : Frac := latY lat
  let Z2 : Frac := Frac.pow2 zoom
  let xtile : ℤ :=
    if x ≤ 0 then 0
    else if 1 ≤ x then pyInt (Z2 - 1)
    else ((x + EPSILON) * Z2).floor
  let ytile : ℤ :=
    if y ≤ 0 then 0
    else if 1 ≤ y then pyInt (Z2 - 1)
    else ((y + EPSILON) * Z2).floor
  ⟨xtile, ytile, zoom⟩

/-- The inclusive integer range `[a, b]` as a list, i.e. Python
`range(a, b + 1)`. -/
def rangeII (a b : ℤ) : List ℤ :=
  (List.range (b + 1 - a).toNat).map fun i : ℕ => a + (i : ℤ)

/-- `mercantile.tiles(west, south, east, north, zooms=[zoom])` as a list:
splits at the antimeridian when `west > east`, clamps each bounding box,
computes the upper-left and lower-right corner tiles (with the
`LL_EPSILON` nudge on the lower-right corner) and yields the full
rectangle of tiles between them. -/
def mtTiles (latY : Frac → Frac) (west south east north : Frac) (zoom : ℤ) : List Tile :=
  let bboxes : List (Frac × Frac × Frac × Frac) :=
    if east < west then
      [(-180, south, east, north), (west, south, 180, north)]
    else
      [(west, south, east, north)]
  bboxes.flatMap fun bb =>
    let w := max (-180) bb.1
    let s := max (-mercLimit) bb.2.1
    let e := min 180 bb.2.2.1
    let n := min mercLimit bb.2.2.2
    let ul := tile latY w n zoom
    let lr := tile latY (e - LL_EPSILON) (s + LL_EPSILON) zoom
    (rangeII ul.x lr.x).flatMap fun i =>
      (rangeII ul.y lr.y).map fun j => ⟨i, j, zoom⟩

/-- Python `min` over a list of integers, `none` on the empty list (where
Python raises `ValueError`). -/
def listMin : List ℤ → Option ℤ
  | [] => none
  | x :: xs => some (xs.foldl min x)

/-- Python `max` over a list of integers, `none` on the empty list (where
Python raises `ValueError`). -/
def listMax : List ℤ → Option ℤ
  | [] => none
  | x :: xs => some (xs.foldl max x)

/-- Result record of `_bounds_to_x_y_min_max` (the `_XYMinMax` dataclass). -/
structure XYMinMax where
  x_min : ℤ
  y_min : ℤ
  x_max : ℤ
  y_max : ℤ
deriving DecidableEq

/-- `_bounds_to_x_y_min_max(bounds, zoom)`: enumerate the provider's valid
tiles with `mercantile.tiles` and take min/max of the x and y indices.
`bounds` is `((south, west), (north, east))` following the source's
unpacking `south_west, north_east = bounds`.  Returns `none` when the
enumeration is empty (Python's `min` would raise `ValueError`). -/
def _bounds_to_x_y_min_max (latY : Frac → Frac) (bounds : (Frac × Frac) × (Frac × Frac))
    (zoom : ℤ) : Option XYMinMax :=
  let south := bounds.1.1
  let west := bounds.1.2
  let north := bounds.2.1
  let east := bounds.2.2
  let valid_tiles := mtTiles latY west south east north zoom
  match listMin (valid_tiles.map Tile.x), listMax (valid_tiles.map Tile.x),
      listMin (valid_tiles.map Tile.y), listMax (valid_tiles.map Tile.y) with
  | some x_min, some x_max, some y_min, some y_max =>
      some ⟨x_min, y_min, x_max, y_max⟩
  | _, _, _, _ => none

/-- One piece of a tile-URL template: literal text or one of the
`x`/`y`/`z` placeholders filled in by `xyzservices.TileProvider.build_url`. -/
inductive UrlPart where
  | lit (s : String)
  | x
  | y
  | z
deriving DecidableEq

/-- Fill a URL template, as `provider.build_url(x=..., y=..., z=...)`. -/
def fillUrlTemplate (parts : List UrlPart) (x y z : String) : String :=
  parts.foldl
    (fun acc p =>
      acc ++ match p with
        | .lit s => s
        | .x => x
        | .y => y
        | .z => z)
    ""

/-- The fields of an `xyzservices.TileProvider` read by this library:
URL template, optional `min_zoom`, `max_zoom`, `bounds`
(`[[south, west], [north, east]]`) and `attribution`. -/
structure TileProvider where
  url : List UrlPart
  min_zoom : Option ℤ := none
  max_zoom : Option ℤ := none
  bounds : Option ((Frac × Frac) × (Frac × Frac)) := none
  attribution : Option String := none
deriving DecidableEq

/-- The exceptions the embedded code can raise. -/
inductive TileError where
  | invalidZoomType
  | zoomOutOfRange (zoom min_zoom max_zoom : ℤ) (max_zoom_known : Bool)
  | unresolvedZoomForBoundedProvider
  | noValidTiles
  | notAChart
  | invalidProjection
  | missingScale
  | notImplemented
deriving DecidableEq

/-- `_validate_zoom(zoom, provider)`: default `min_zoom` is 0; when the
provider declares no `max_zoom`, 30 is used and the error message omits
the valid range (`max_zoom_known = false`). -/
def _validate_zoom (zoom : ℤ) (provider : TileProvider) : Except TileError Unit :=
  let min_zoom := provider.min_zoom.getD 0
  let maxPair : ℤ × Bool :=
    match provider.max_zoom with
    | some m => (m, true)
    | none => (30, false)
  if min_zoom ≤ zoom ∧ zoom ≤ maxPair.1 then .ok ()
  else .error (.zoomOutOfRange zoom min_zoom maxPair.1 maxPair.2)

/-- `_calculate_one_side_grid_size(evaluated_zoom_level_ceil)`.  The value
is rational because Python's `2 ** z` is a float for negative `z`. -/
def _calculate_one_side_grid_size (evaluated_zoom_level_ceil : Option ℤ) : Frac :=
  let maximum_value : Frac := 20
  match evaluated_zoom_level_ceil with
  | some z =>
      let evaluated_max_one_side_tiles_count : Frac := Frac.pow2 z
      min (evaluated_max_one_side_tiles_count + 2) maximum_value
  | none => maximum_value

/-- A Python literal stored in an `alt.param(value=...)`. -/
inductive PyLit where
  | int (i : ℤ)
  | bool (b : Bool)
deriving DecidableEq

/-- An `alt.param` definition: a literal value or a Vega expression string. -/
inductive ParamDef where
  | value (v : PyLit)
  | expr (e : String)
deriving DecidableEq

/-- One bound handed to `_transform_filter_url_x_y_bounds`: Python's
`Union[str, int]` (a literal index or a Vega expression string). -/
inductive BoundVal where
  | lit (i : ℤ)
  | sym (e : String)
deriving DecidableEq

/-- Python `str()`/f-string formatting of a `BoundVal`. -/
def BoundVal.pyStr : BoundVal → String
  | .lit i => toString i
  | .sym e => e

/-- The x/y index bounds passed to `_transform_filter_url_x_y_bounds`. -/
structure IndexBounds where
  x_min : BoundVal
  x_max : BoundVal
  y_min : BoundVal
  y_max : BoundVal
deriving DecidableEq

/-- `_transform_filter_url_x_y_bounds(...)`: the filter expression string
it builds from the given bounds. -/
def _transform_filter_url_x_y_bounds (x_min x_max y_min y_max : BoundVal)
    (expr_url_x expr_url_y : String) : String :=
  expr_url_x ++ " >= " ++ x_min.pyStr ++ " && " ++ expr_url_y ++ " >= " ++ y_min.pyStr
    ++ " && " ++ expr_url_x ++ " <= " ++ x_max.pyStr
    ++ " && " ++ expr_url_y ++ " <= " ++ y_max.pyStr

/-- The text mark built by `add_attribution`: bottom-left anchored
(`x = value(0)`, `y = value(expr("height"))`, `align="left"`,
`dy=-8`, `dx=3`). -/
structure TextMark where
  text : String
  dy : ℤ
  dx : ℤ
  align : String
  xValue : ℤ
  yValueExpr : String
deriving DecidableEq

/-- The attribution text layer for a resolved text `t`. -/
def attribution_mark (t : String) : TextMark :=
  ⟨t, -8, 3, "left", 0, "height"⟩

/-- The `attribution` argument: Python `Union[str, bool]`. -/
inductive AttributionArg where
  | bool (b : Bool)
  | str (s : String)
deriving DecidableEq

/-- Python truthiness of the `attribution` argument. -/
def AttributionArg.truthy : AttributionArg → Bool
  | .bool b => b
  | .str s => s != ""

/-- The `attribution_text` local of `add_attribution`:
`attribution if isinstance(attribution, str) else provider.get("attribution")`
when `attribution` is truthy, else `None`. -/
def _attribution_text (attribution : AttributionArg) (provider : TileProvider) :
    Option String :=
  if attribution.truthy then
    match attribution with
    | .str s => some s
    | .bool _ => provider.attribution
  else none

/-- The text layer that attribution handling adds, if any: present exactly
when `attribution_text` is truthy (a non-empty string). -/
def chart_attribution_layer (attribution : AttributionArg)
    (provider : TileProvider) : Option TextMark :=
  match _attribution_text attribution provider with
  | some t => if t != "" then some (attribution_mark t) else none
  | none => none

/-- A value that may appear as the `zoom` argument after the `isinstance`
check: a Python `int` or `bool` (`isinstance(True, int)` holds). -/
inductive ZoomVal where
  | int (z : ℤ)
  | bool (b : Bool)
deriving DecidableEq

/-- Python `math.ceil` on an `int` or `bool` zoom value (`ceil(True) = 1`,
`ceil(False) = 0`). -/
def ZoomVal.ceilInt : ZoomVal → ℤ
  | .int z => z
  | .bool b => cond b 1 0

/-- The literal stored in `alt.param(value=zoom)`. -/
def ZoomVal.lit : ZoomVal → PyLit
  | .int z => .int z
  | .bool b => .bool b

/-- The dynamically typed `zoom` argument of the public entry points. -/
inductive PyZoom where
  | none
  | int (z : ℤ)
  | bool (b : Bool)
  | str (s : String)
deriving DecidableEq

/-- The `pr_scale` parameter expression `geoScale('projection')`. -/
def pr_scale_expr : String := "geoScale(\x27projection\x27)"

/-- The `base_tile_size` expression used when an explicit zoom is given. -/
def base_tile_size_zoom_expr : String :=
  "(2 * PI * pr_scale) / pow(2, zoom_level)"

/-- The `zoom_level` expression used when no zoom is given. -/
def zoom_level_auto_expr : String :=
  "log((2 * PI * pr_scale) / base_tile_size) / log(2)"

/-- `expr_url_x` from the source. -/
def expr_url_x : String :=
  "((datum.a + dii_floor + max_one_side_tiles_count) % max_one_side_tiles_count)"

/-- `expr_url_y` from the source. -/
def expr_url_y : String :=
  "(datum.b + djj_floor)"

/-- `format_value` from the nested `build_url` helper. -/
def format_value (v : String) : String :=
  "\x27 + " ++ v ++ " + \x27"

/-- The nested `build_url(provider, x, y, z)` helper: the provider URL with
each placeholder replaced by a quoted Vega concatenation. -/
def build_url (provider : TileProvider) (x y z : String) : String :=
  "\x27" ++ fillUrlTemplate provider.url (format_value x) (format_value y)
    (format_value z) ++ "\x27"

/-- Python `width or 'width'` (and the analogous height fall-back): `None`
and `0` are falsy, any other integer is formatted with `str`. -/
def pyOrDim (v : Option ℤ) (signal : String) : String :=
  match v with
  | Option.none => signal
  | some w => if w = 0 then signal else toString w

/-- The screen-bounds filter expression from the source. -/
def screen_filter_expr (width height : Option ℤ) : String :=
  "datum.x < (" ++ pyOrDim width "width" ++ " + tile_size / 2) && "
    ++ "datum.y < (" ++ pyOrDim height "height" ++ " + tile_size / 2)"

/-- The index bounds a provider without geographic bounds gets:
`[0, max_one_side_tiles_count - 1]` on both axes. -/
def default_index_bounds : IndexBounds :=
  ⟨.lit 0, .sym "(max_one_side_tiles_count - 1)",
   .lit 0, .sym "(max_one_side_tiles_count - 1)"⟩

/-- The parameter graph in `add_params` order, with each parameter's
defining expression or literal from the source. -/
def params_list (base_tile_size_def zoom_level_def : ParamDef) :
    List (String × ParamDef) :=
  [("base_tile_size", base_tile_size_def),
   ("pr_scale", .expr pr_scale_expr),
   ("zoom_level", zoom_level_def),
   ("zoom_ceil", .expr "ceil(zoom_level)"),
   ("max_one_side_tiles_count", .expr "pow(2, zoom_ceil)"),
   ("tile_size", .expr "base_tile_size * pow(2, zoom_level - zoom_ceil)"),
   ("base_point", .expr "invert(\x27projection\x27, [0, 0])"),
   ("dii", .expr "(base_point[0] + 180) / 360 * max_one_side_tiles_count"),
   ("dii_floor", .expr "floor(dii)"),
   ("dx", .expr "(dii_floor - dii) * tile_size"),
   ("djj", .expr "(1 - log(tan(base_point[1] * PI / 180) + 1 / cos(base_point[1] * PI / 180)) / PI) / 2 * max_one_side_tiles_count"),
   ("djj_floor", .expr "floor(djj)"),
   ("dy", .expr "round((djj_floor - djj) * tile_size)")]

/-- The chart fragment `_create_nonstandalone_tiles_chart` emits: the
randomized tile-list data-source name, the grid size used in the
`alt.sequence` generator and the `b` calculate transform, the per-cell
computed expressions, the two filter predicates, the parameter graph and
the optional attribution layer. -/
structure TilesChart where
  tile_list_name : String
  one_side_grid_size : Frac
  url_expr : String
  x_expr : String
  y_expr : String
  mark_size_expr : String
  screen_filter : String
  index_bounds : IndexBounds
  index_filter : String
  params : List (String × ParamDef)
  evaluated_zoom_level_ceil : Option ℤ
  attribution_layer : Option TextMark
deriving DecidableEq

/-- `evaluated_zoom_level_ceil`: `math.ceil(zoom)` when a zoom was given,
`None` otherwise. -/
def _evaluated_zoom_ceil (zoom : Option ZoomVal) : Option ℤ :=
  zoom.map ZoomVal.ceilInt

/-- The `zoom_level` parameter definition for the given zoom argument. -/
def _zoom_level_def (zoom : Option ZoomVal) : ParamDef :=
  match zoom with
  | some v => .value v.lit
  | Option.none => .expr zoom_level_auto_expr

/-- The `base_tile_size` parameter definition for the given zoom argument
(literal 256 when the zoom level is computed from the scale). -/
def _base_tile_size_def (zoom : Option ZoomVal) : ParamDef :=
  match zoom with
  | some _ => .expr base_tile_size_zoom_expr
  | Option.none => .value (.int 256)

/-- The index-bounds step of `_create_nonstandalone_tiles_chart`: default
heuristic bounds for a provider covering the whole earth; for a provider
with declared bounds, fail when no concrete zoom was resolvable, else
compute literal bounds with `_bounds_to_x_y_min_max` (failing when the
tile enumeration is empty, where Python's `min` raises). -/
def _index_bounds_step (latY : Frac → Frac) (provider : TileProvider)
    (evaluated_zoom_level_ceil : Option ℤ) : Except TileError IndexBounds :=
  match provider.bounds with
  | Option.none => .ok default_index_bounds
  | some bb =>
    match evaluated_zoom_level_ceil with
    | Option.none => .error .unresolvedZoomForBoundedProvider
    | some z =>
      match _bounds_to_x_y_min_max latY bb z with
      | Option.none => .error .noValidTiles
      | some m => .ok ⟨.lit m.x_min, .lit m.x_max, .lit m.y_min, .lit m.y_max⟩

/-- The successfully built tiles chart for the given inputs and resolved
index bounds. -/
def _mk_tiles_chart (provider : TileProvider) (zoom : Option ZoomVal)
    (attribution : AttributionArg) (width height : Option ℤ)
    (rand_token : String) (ib : IndexBounds) : TilesChart :=
  { tile_list_name := "tile_list_" ++ rand_token
    one_side_grid_size := _calculate_one_side_grid_size (_evaluated_zoom_ceil zoom)
    url_expr := build_url provider expr_url_x expr_url_y "zoom_ceil"
    x_expr := "datum.a * tile_size + dx + (tile_size / 2)"
    y_expr := "datum.b * tile_size + dy + (tile_size / 2)"
    mark_size_expr := "tile_size + 1"
    screen_filter := screen_filter_expr width height
    index_bounds := ib
    index_filter := _transform_filter_url_x_y_bounds ib.x_min ib.x_max ib.y_min
      ib.y_max expr_url_x expr_url_y
    params := params_list (_base_tile_size_def zoom) (_zoom_level_def zoom)
    evaluated_zoom_level_ceil := _evaluated_zoom_ceil zoom
    attribution_layer := chart_attribution_layer attribution provider }

/-- `_create_nonstandalone_tiles_chart`: validate the evaluated zoom when
one exists, resolve the index bounds (raising for bounded providers
without a concrete zoom), and emit the chart fragment. -/
def _create_nonstandalone_tiles_chart (latY : Frac → Frac) (provider : TileProvider)
    (zoom : Option ZoomVal) (attribution : AttributionArg)
    (width height : Option ℤ) (rand_token : String) :
    Except TileError TilesChart :=
  match (match _evaluated_zoom_ceil zoom with
         | some z => _validate_zoom z provider
         | Option.none => .ok ()) with
  | .error e => .error e
  | .ok _ =>
    match _index_bounds_step latY provider (_evaluated_zoom_ceil zoom) with
    | .error e => .error e
    | .ok ib =>
      .ok (_mk_tiles_chart provider zoom attribution width height rand_token ib)

/-- `create_tiles_chart`: reject a `zoom` that is neither `None` nor an
integer (`bool` passes the `isinstance` check), then build the
non-standalone tiles chart. -/
def create_tiles_chart (latY : Frac → Frac) (provider : TileProvider)
    (zoom : PyZoom) (attribution : AttributionArg) (width height : Option ℤ)
    (rand_token : String) : Except TileError TilesChart :=
  match zoom with
  | .str _ => .error .invalidZoomType
  | .none =>
      _create_nonstandalone_tiles_chart latY provider Option.none attribution
        width height rand_token
  | .int z =>
      _create_nonstandalone_tiles_chart latY provider (some (.int z)) attribution
        width height rand_token
  | .bool b =>
      _create_nonstandalone_tiles_chart latY provider (some (.bool b)) attribution
        width height rand_token

/-- The Vega-Lite projection descriptor of an input chart: `type` and
`scale` may each be `alt.Undefined` (`none`). -/
structure Projection where
  ptype : Option String
  scale : Option ℤ
deriving DecidableEq

/-- The parts of an `alt.Chart` the embedded functions inspect. -/
structure InputChart where
  mark : Option String
  projection : Option Projection
deriving DecidableEq

/-- The dynamically typed `chart` argument: a single-layer `alt.Chart`, an
already-composed `alt.LayerChart`, or some other Python object. -/
inductive PyChartArg where
  | chart (c : InputChart)
  | layerChart (cs : List InputChart)
  | pyObj
deriving DecidableEq

/-- One layer of a composed chart. -/
inductive ChartLayer where
  | tilesLayer (c : TilesChart)
  | userChart (c : InputChart)
  | userLayerChart (cs : List InputChart)
  | pyObjLayer
  | text (m : TextMark)
deriving DecidableEq

/-- The layers contributed by the `chart` argument when it is layered via
`tiles + chart`. -/
def chartArgLayers : PyChartArg → List ChartLayer
  | .chart c => [.userChart c]
  | .layerChart cs => [.userLayerChart cs]
  | .pyObj => [.pyObjLayer]

/-- `add_attribution(chart, provider, attribution)`: resolve the text and
append a bottom-left anchored text layer exactly when the resolved text is
truthy (non-empty). -/
def add_attribution (chart : List ChartLayer) (provider : TileProvider)
    (attribution : AttributionArg) : List ChartLayer :=
  match chart_attribution_layer attribution provider with
  | some m => chart ++ [.text m]
  | Option.none => chart

/-- `add_tiles(chart, provider, zoom, attribution, width, height)`: builds
the tiles chart (with `attribution=False`), layers it under the given
chart with no validation of the chart argument, then adds the attribution
on top when the setting is truthy. -/
def add_tiles (latY : Frac → Frac) (chart : PyChartArg) (provider : TileProvider)
    (zoom : PyZoom) (attribution : AttributionArg) (width height : Option ℤ)
    (rand_token : String) : Except TileError (List ChartLayer) :=
  match create_tiles_chart latY provider zoom (.bool false) width height
      rand_token with
  | .error e => .error e
  | .ok tiles =>
    let final_chart := ChartLayer.tilesLayer tiles :: chartArgLayers chart
    if attribution.truthy then
      .ok (add_attribution final_chart provider attribution)
    else
      .ok final_chart

/-- `altair_basemaps._validate_chart(chart)`: requires a Mercator
projection, then a set projection scale. -/
def _validate_chart (chart : InputChart) : Except TileError Unit :=
  match chart.projection with
  | Option.none => .error .invalidProjection
  | some pr =>
    if pr.ptype != some "mercator" then .error .invalidProjection
    else
      match pr.scale with
      | Option.none => .error .missingScale
      | some _ => .ok ()

/-- The parameter graph built by `altair_basemaps.add_basemap` (the
parameter names differ slightly from `altair_tiles`: `tiles_count`
instead of `max_one_side_tiles_count`, and `pr_scale` is the stringified
projection scale). -/
def basemap_params (scale : ℤ) (zoom : Option ZoomVal) :
    List (String × ParamDef) :=
  [("base_tile_size",
      match zoom with
      | some _ => .expr "(2 * PI * pr_scale) / pow(2, zoom_level)"
      | Option.none => .value (.int 256)),
   ("pr_scale", .expr (toString scale)),
   ("zoom_level",
      match zoom with
      | some v => .value v.lit
      | Option.none => .expr "log((2 * PI * pr_scale) / base_tile_size) / log(2)"),
   ("zoom_ceil", .expr "ceil(zoom_level)"),
   ("tiles_count", .expr "pow(2, zoom_ceil)"),
   ("tile_size", .expr "base_tile_size * pow(2, zoom_level - zoom_ceil)"),
   ("base_point", .expr "invert(\x27projection\x27, [0, 0])"),
   ("dii", .expr "(base_point[0] + 180) / 360 * tiles_count"),
   ("dii_floor", .expr "floor(dii)"),
   ("dx", .expr "(dii_floor - dii) * tile_size"),
   ("djj", .expr "(1 - log(tan(base_point[1] * PI / 180) + 1 / cos(base_point[1] * PI / 180)) / PI) / 2 * tiles_count"),
   ("djj_floor", .expr "floor(djj)"),
   ("dy", .expr "round((djj_floor - djj) * tile_size)")]

/-- The chart fragment `add_basemap` emits on success. -/
structure BasemapPlan where
  params : List (String × ParamDef)
  tile_list_name : String
  grid_num_columns : ℤ
  grid_num_rows : ℤ
  url_expr : String
  x_expr : String
  y_expr : String
  mark_size_expr : String
deriving DecidableEq

/-- The non-`str` zoom values, as passed through `add_basemap`. -/
def pyZoomVal : PyZoom → Option ZoomVal
  | .int z => some (.int z)
  | .bool b => some (.bool b)
  | _ => Option.none

/-- The successful result of `add_basemap` for a resolved scale. -/
def _mk_basemap_plan (source : TileProvider) (zoom : Option ZoomVal)
    (scale : ℤ) (grid_num_columns grid_num_rows : ℤ) : BasemapPlan :=
  { params := basemap_params scale zoom
    tile_list_name := "tile_list"
    grid_num_columns := grid_num_columns
    grid_num_rows := grid_num_rows
    url_expr := build_url source
      "((datum.a + dii_floor + tiles_count) % tiles_count)"
      "(datum.b + djj_floor)" "zoom_ceil"
    x_expr := "datum.a * tile_size + dx + (tile_size / 2)"
    y_expr := "datum.b * tile_size + dy + (tile_size / 2)"
    mark_size_expr := "tile_size + 1" }

/-- `altair_basemaps.add_basemap(chart, source, zoom, grid_num_columns,
grid_num_rows)`: `isinstance` check on the chart, zoom type check,
`_validate_chart` (Mercator projection, then projection scale), then the
parameter graph is built from the chart's scale.  The
`NotImplementedError` branch for a missing scale is unreachable because
`_validate_chart` already raised. -/
def add_basemap (chart : PyChartArg) (source : TileProvider) (zoom : PyZoom)
    (grid_num_columns grid_num_rows : ℤ) : Except TileError BasemapPlan :=
  match chart with
  | .layerChart _ => .error .notAChart
  | .pyObj => .error .notAChart
  | .chart c =>
    match zoom with
    | .str _ => .error .invalidZoomType
    | z =>
      match _validate_chart c with
      | .error e => .error e
      | .ok _ =>
        match c.projection with
        | some pr =>
          match pr.scale with
          | some sc =>
              .ok (_mk_basemap_plan source (pyZoomVal z) sc grid_num_columns
                grid_num_rows)
          | Option.none => .error .notImplemented
        | Option.none => .error .notImplemented

/-- Specification-side computation for the index-bounds refinement claim:
the upper-left corner tile obtained by converting the provider's clamped
west/north bound to tile indices at the ceiled zoom with the standard
slippy-map tile formula (exactly the corner the standard tile enumeration
uses). -/
def spec_ul_tile (latY : Frac → Frac) (bounds : (Frac × Frac) × (Frac × Frac)) (zoom : ℤ) : Tile :=
  tile latY (max (-180) bounds.1.2) (min mercLimit bounds.2.1) zoom

/-- Specification-side computation for the index-bounds refinement claim:
the lower-right corner tile obtained by converting the provider's clamped
east/south bound (with the standard enumeration's epsilon nudge) to tile
indices at the ceiled zoom with the standard slippy-map tile formula. -/
def spec_lr_tile (latY : Frac → Frac) (bounds : (Frac × Frac) × (Frac × Frac)) (zoom : ℤ) : Tile :=
  tile latY (min 180 bounds.2.2 - LL_EPSILON) (max (-mercLimit) bounds.1.1 + LL_EPSILON)
    zoom

/-- Specification-side resolution of the attribution text, following the
spec's words: `true` means the provider's default text, a string means
that string, `false` means no text. -/
def spec_attribution_text (attribution : AttributionArg)
    (provider : TileProvider) : Option String :=
  match attribution with
  | .bool true => provider.attribution
  | .bool false => Option.none
  | .str s => some s

/-- The one-side grid size a planning result emits, when it succeeds. -/
def gridSizeOf (r : Except TileError TilesChart) : Option Frac :=
  r.toOption.map TilesChart.one_side_grid_size

/-- The index bounds a planning result emits, when it succeeds. -/
def indexBoundsOf (r : Except TileError TilesChart) : Option IndexBounds :=
  r.toOption.map TilesChart.index_bounds

/-- The tile-list data-source name a planning result emits, when it
succeeds. -/
def tileListNameOf (r : Except TileError TilesChart) : Option String :=
  r.toOption.map TilesChart.tile_list_name

/-- Erase the randomized tile-list data-source name, leaving every
computed value of the chart fragment. -/
def strip_tile_list_name (c : TilesChart) : TilesChart :=
  { c with tile_list_name := "" }

/-- Replace the stored literal of the `zoom_level` parameter. -/
def set_zoom_level_lit (v : PyLit) (c : TilesChart) : TilesChart :=
  { c with params := c.params.map fun nd =>
      if nd.1 = "zoom_level" then (nd.1, .value v) else nd }

/-- A concrete stand-in for the abstract latitude-to-Mercator-fraction map,
used by the witnesses: affine and decreasing in the latitude, mapping
(-90, 90) into (0, 1) like the real formula. -/
def latY0 : Frac → Frac := fun lat => 1 / 2 - lat / 180

/-- A concrete provider without geographic bounds, shaped like
OpenStreetMap.Mapnik. -/
def osm : TileProvider :=
  { url := [.lit "https://tile.openstreetmap.org/", .z, .lit "/", .x, .lit "/",
      .y, .lit ".png"]
    min_zoom := some 0
    max_zoom := some 19
    bounds := Option.none
    attribution := some "(C) OpenStreetMap contributors" }

/-- A concrete provider declaring min/max zoom and no bounds, used by the
zoom-validation witness. -/
def provMinMax : TileProvider :=
  { url := [.lit "https://tiles.example.org/", .z, .lit "/", .x, .lit "/",
      .y, .lit ".png"]
    min_zoom := some 2
    max_zoom := some 5
    bounds := Option.none
    attribution := Option.none }

/-- A concrete provider declaring geographic bounds
`[[south 40, west 5], [north 50, east 10]]`. -/
def provBounded : TileProvider :=
  { url := [.lit "https://regional.example.org/", .z, .lit "/", .x, .lit "/",
      .y, .lit ".png"]
    min_zoom := some 0
    max_zoom := some 19
    bounds := some ((40, 5), (50, 10))
    attribution := Option.none }

/-- A concrete chart with a Mercator projection and no scale set. -/
def chartNoScale : InputChart :=
  { mark := some "geoshape"
    projection := some { ptype := some "mercator", scale := Option.none } }

/-- A concrete chart whose mark is not a geoshape but which has a valid
Mercator projection with a scale. -/
def chartBarMark : InputChart :=
  { mark := some "bar"
    projection := some { ptype := some "mercator", scale := some 200000000 } }

/-- Certification: `ofInt` denotes the integer. -/
theorem Frac.toRat_ofInt (n : ℤ) : (Frac.ofInt n).toRat = (n : ℚ) := by
  simp [Frac.toRat, Frac.ofInt]

/-- Certification: negation of fractions denotes rational negation. -/
theorem Frac.toRat_neg (a : Frac) : (-a).toRat = -a.toRat := by
  show (Frac.neg a).toRat = _
  simp [Frac.toRat, Frac.neg, neg_div]

/-- Certification: addition of fractions denotes rational addition. -/
theorem Frac.toRat_add (a b : Frac) (ha : 0 < a.den) (hb : 0 < b.den) :
    (a + b).toRat = a.toRat + b.toRat := by
  have ha' : (a.den : ℚ) ≠ 0 := Int.cast_ne_zero.mpr (ne_of_gt ha)
  have hb' : (b.den : ℚ) ≠ 0 := Int.cast_ne_zero.mpr (ne_of_gt hb)
  show (Frac.add a b).toRat = _
  unfold Frac.toRat Frac.add
  push_cast
  field_simp
  try ring

/-- Certification: subtraction of fractions denotes rational subtraction. -/
theorem Frac.toRat_sub (a b : Frac) (ha : 0 < a.den) (hb : 0 < b.den) :
    (a - b).toRat = a.toRat - b.toRat := by
  have ha' : (a.den : ℚ) ≠ 0 := Int.cast_ne_zero.mpr (ne_of_gt ha)
  have hb' : (b.den : ℚ) ≠ 0 := Int.cast_ne_zero.mpr (ne_of_gt hb)
  show (Frac.sub a b).toRat = _
  unfold Frac.toRat Frac.sub
  push_cast
  field_simp
  try ring

/-- Certification: multiplication of fractions denotes rational
multiplication. -/
theorem Frac.toRat_mul (a b : Frac) : (a * b).toRat = a.toRat * b.toRat := by
  show (Frac.mul a b).toRat = _
  unfold Frac.toRat Frac.mul
  push_cast
  rw [div_mul_div_comm]

/-- Certification: division of fractions denotes rational division when the
divisor is nonzero. -/
theorem Frac.toRat_div (a b : Frac) (ha : 0 < a.den) (hb : 0 < b.den)
    (hbn : b.num ≠ 0) : (a / b).toRat = a.toRat / b.toRat := by
  have ha' : (a.den : ℚ) ≠ 0 := Int.cast_ne_zero.mpr (ne_of_gt ha)
  have hb' : (b.den : ℚ) ≠ 0 := Int.cast_ne_zero.mpr (ne_of_gt hb)
  have hbn' : (b.num : ℚ) ≠ 0 := Int.cast_ne_zero.mpr hbn
  show (Frac.div a b).toRat = _
  unfold Frac.toRat Frac.div
  split
  · push_cast
    field_simp
    try ring
  · push_cast
    field_simp
    try ring

/-- Certification: the order on fractions denotes the rational order for
positive denominators. -/
theorem Frac.le_iff (a b : Frac) (ha : 0 < a.den) (hb : 0 < b.den) :
    a ≤ b ↔ a.toRat ≤ b.toRat := by
  have ha' : (0 : ℚ) < (a.den : ℚ) := by exact_mod_cast ha
  have hb' : (0 : ℚ) < (b.den : ℚ) := by exact_mod_cast hb
  show Frac.le a b ↔ _
  unfold Frac.le Frac.toRat
  rw [div_le_div_iff₀ ha' hb']
  exact_mod_cast Iff.rfl

/-- Certification: the strict order on fractions denotes the rational
strict order for positive denominators. -/
theorem Frac.lt_iff (a b : Frac) (ha : 0 < a.den) (hb : 0 < b.den) :
    a < b ↔ a.toRat < b.toRat := by
  have ha' : (0 : ℚ) < (a.den : ℚ) := by exact_mod_cast ha
  have hb' : (0 : ℚ) < (b.den : ℚ) := by exact_mod_cast hb
  show Frac.lt a b ↔ _
  unfold Frac.lt Frac.toRat
  rw [div_lt_div_iff₀ ha' hb']
  exact_mod_cast Iff.rfl

/-- Certification: `Frac.floor` is the rational floor for positive
denominators. -/
theorem Frac.toRat_floor (a : Frac) (ha : 0 < a.den) : a.floor = ⌊a.toRat⌋ := by
  have h : ((a.den.toNat : ℤ)) = a.den := Int.toNat_of_nonneg ha.le
  have hc : ((a.den.toNat : ℕ) : ℚ) = ((a.den : ℤ) : ℚ) := by exact_mod_cast h
  unfold Frac.floor Frac.toRat
  rw [Int.fdiv_eq_ediv _ ha.le, ← hc, Rat.floor_intCast_div_natCast a.num a.den.toNat, h]

/-- Certification: `pyInt` is Python `int()` (truncation toward zero) for
positive denominators. -/
theorem pyInt_eq_trunc (a : Frac) (ha : 0 < a.den) :
    pyInt a = if a.toRat < 0 then -⌊-a.toRat⌋ else ⌊a.toRat⌋ := by
  have h : ((a.den.toNat : ℤ)) = a.den := Int.toNat_of_nonneg ha.le
  have hq : a.toRat = (a.num : ℚ) / (a.den : ℚ) := rfl
  have hden' : (0 : ℚ) < (a.den : ℚ) := by exact_mod_cast ha
  have hc : ((a.den.toNat : ℕ) : ℚ) = ((a.den : ℤ) : ℚ) := by exact_mod_cast h
  unfold pyInt
  by_cases hn : a.num < 0
  · have hneg : a.toRat < 0 := by
      rw [hq]
      apply div_neg_of_neg_of_pos _ hden'
      exact_mod_cast hn
    rw [if_pos hneg]
    have h1 : a.num.tdiv a.den = -((-a.num).tdiv a.den) := by
      rw [← Int.neg_tdiv, neg_neg]
    rw [h1, Int.tdiv_eq_ediv (by omega) ha.le]
    have h2 : -a.toRat = ((-a.num : ℤ) : ℚ) / ((a.den.toNat : ℕ) : ℚ) := by
      rw [hq, ← neg_div, hc]
      push_cast
      ring_nf
    rw [h2, Rat.floor_intCast_div_natCast, h]
  · have hpos : ¬a.toRat < 0 := by
      rw [hq]
      push_neg
      apply div_nonneg _ hden'.le
      exact_mod_cast not_lt.mp hn
    rw [if_neg hpos]
    rw [Int.tdiv_eq_ediv (not_lt.mp hn) ha.le]
    have h2 : a.toRat = ((a.num : ℤ) : ℚ) / ((a.den.toNat : ℕ) : ℚ) := by
      rw [hq, hc]
    rw [h2, Rat.floor_intCast_div_natCast, h]

/-- Membership in the inclusive integer range. -/
theorem mem_rangeII {a b x : ℤ} : x ∈ rangeII a b ↔ a ≤ x ∧ x ≤ b := by
  simp only [rangeII, List.mem_map, List.mem_range]
  constructor
  · rintro ⟨i, hi, hix⟩
    omega
  · intro h
    exact ⟨(x - a).toNat, by omega, by omega⟩

/-- A left fold of `min` lands on an element of the initial value and the
list. -/
theorem foldl_min_mem : ∀ (xs : List ℤ) (x : ℤ), xs.foldl min x ∈ x :: xs := by
  intro xs
  induction xs with
  | nil => intro x; simp
  | cons y ys ih =>
    intro x
    have h := ih (min x y)
    simp only [List.foldl_cons, List.mem_cons] at *
    rcases h with h1 | h1
    · rcases min_cases x y with ⟨he, _⟩ | ⟨he, _⟩
      · exact Or.inl (h1.trans he)
      · exact Or.inr (Or.inl (h1.trans he))
    · exact Or.inr (Or.inr h1)

/-- A left fold of `min` is a lower bound of the initial value and the
list. -/
theorem foldl_min_le : ∀ (xs : List ℤ) (x : ℤ), ∀ y ∈ x :: xs, xs.foldl min x ≤ y := by
  intro xs
  induction xs with
  | nil =>
    intro x y hy
    simp only [List.mem_singleton] at hy
    simp [hy]
  | cons z zs ih =>
    intro x y hy
    simp only [List.foldl_cons]
    have hbase : zs.foldl min (min x z) ≤ min x z :=
      ih (min x z) (min x z) (List.mem_cons_self _ _)
    rcases List.mem_cons.mp hy with h1 | h1
    · subst h1
      exact le_trans hbase (min_le_left _ _)
    · rcases List.mem_cons.mp h1 with h2 | h2
      · subst h2
        exact le_trans hbase (min_le_right _ _)
      · exact ih (min x z) y (List.mem_cons_of_mem _ h2)

/-- A left fold of `max` lands on an element of the initial value and the
list. -/
theorem foldl_max_mem : ∀ (xs : List ℤ) (x : ℤ), xs.foldl max x ∈ x :: xs := by
  intro xs
  induction xs with
  | nil => intro x; simp
  | cons y ys ih =>
    intro x
    have h := ih (max x y)
    simp only [List.foldl_cons, List.mem_cons] at *
    rcases h with h1 | h1
    · rcases max_cases x y with ⟨he, _⟩ | ⟨he, _⟩
      · exact Or.inl (h1.trans he)
      · exact Or.inr (Or.inl (h1.trans he))
    · exact Or.inr (Or.inr h1)

/-- A left fold of `max` is an upper bound of the initial value and the
list. -/
theorem foldl_max_ge : ∀ (xs : List ℤ) (x : ℤ), ∀ y ∈ x :: xs, y ≤ xs.foldl max x := by
  intro xs
  induction xs with
  | nil =>
    intro x y hy
    simp only [List.mem_singleton] at hy
    simp [hy]
  | cons z zs ih =>
    intro x y hy
    simp only [List.foldl_cons]
    have hbase : max x z ≤ zs.foldl max (max x z) :=
      ih (max x z) (max x z) (List.mem_cons_self _ _)
    rcases List.mem_cons.mp hy with h1 | h1
    · subst h1
      exact le_trans (le_max_left _ _) hbase
    · rcases List.mem_cons.mp h1 with h2 | h2
      · subst h2
        exact le_trans (le_max_right _ _) hbase
      · exact ih (max x z) y (List.mem_cons_of_mem _ h2)

/-- `listMin` computes any element that is a lower bound. -/
theorem listMin_eq_of_mem_of_le {l : List ℤ} {m : ℤ} (hm : m ∈ l)
    (hle : ∀ y ∈ l, m ≤ y) : listMin l = some m := by
  cases l with
  | nil => cases hm
  | cons x xs =>
    unfold listMin
    have h1 := foldl_min_mem xs x
    have h2 := foldl_min_le xs x
    exact congrArg some (le_antisymm (h2 m hm) (hle _ h1))

/-- `listMax` computes any element that is an upper bound. -/
theorem listMax_eq_of_mem_of_ge {l : List ℤ} {m : ℤ} (hm : m ∈ l)
    (hge : ∀ y ∈ l, y ≤ m) : listMax l = some m := by
  cases l with
  | nil => cases hm
  | cons x xs =>
    unfold listMax
    have h1 := foldl_max_mem xs x
    have h2 := foldl_max_ge xs x
    exact congrArg some (le_antisymm (hge _ h1) (h2 m hm))

/-- Characterization of the standard tile enumeration for a bounding box
that does not cross the antimeridian: exactly the rectangle of indices
between the two corner tiles. -/
theorem mem_mtTiles {latY : Frac → Frac} {west south east north : Frac}
    {zoom : ℤ} {t : Tile} (hwe : ¬ east < west) :
    t ∈ mtTiles latY west south east north zoom ↔
      ((spec_ul_tile latY ((south, west), (north, east)) zoom).x ≤ t.x
        ∧ t.x ≤ (spec_lr_tile latY ((south, west), (north, east)) zoom).x
        ∧ (spec_ul_tile latY ((south, west), (north, east)) zoom).y ≤ t.y
        ∧ t.y ≤ (spec_lr_tile latY ((south, west), (north, east)) zoom).y
        ∧ t.z = zoom) := by
  unfold mtTiles spec_ul_tile spec_lr_tile
  rw [if_neg hwe]
  simp only [List.flatMap_cons, List.flatMap_nil, List.append_nil,
    List.mem_flatMap, List.mem_map, mem_rangeII]
  constructor
  · rintro ⟨i, ⟨hi1, hi2⟩, j, ⟨hj1, hj2⟩, rfl⟩
    exact ⟨hi1, hi2, hj1, hj2, rfl⟩
  · rintro ⟨h1, h2, h3, h4, h5⟩
    exact ⟨t.x, ⟨h1, h2⟩, t.y, ⟨h3, h4⟩, by cases t; simp at h5; simp [h5]⟩

/-- For a provider bounding box that does not cross the antimeridian, the
min/max tile indices computed by `_bounds_to_x_y_min_max` (by folding
Python `min`/`max` over the full enumeration) are exactly the corner tile
indices obtained by converting the bounds with the standard slippy-map
tile formula. -/
theorem bounds_to_x_y_min_max_eq_corners {latY : Frac → Frac}
    {bounds : (Frac × Frac) × (Frac × Frac)} {zoom : ℤ} {m : XYMinMax}
    (hwe : ¬ bounds.2.2 < bounds.1.2)
    (h : _bounds_to_x_y_min_max latY bounds zoom = some m) :
    m = ⟨(spec_ul_tile latY bounds zoom).x, (spec_ul_tile latY bounds zoom).y,
         (spec_lr_tile latY bounds zoom).x, (spec_lr_tile latY bounds zoom).y⟩ := by
  obtain ⟨⟨south, west⟩, ⟨north, east⟩⟩ := bounds
  have hwe' : ¬ east < west := hwe
  unfold _bounds_to_x_y_min_max at h
  dsimp only at h
  set ts := mtTiles latY west south east north zoom with hts
  cases hts' : ts with
  | nil =>
    rw [hts'] at h
    simp [listMin, listMax] at h
  | cons t rest =>
    have htmem : t ∈ ts := by rw [hts']; exact List.mem_cons_self _ _
    have hbounds := (mem_mtTiles hwe').mp (hts ▸ htmem)
    obtain ⟨hx1, hx2, hy1, hy2, hz⟩ := hbounds
    have hxle : (spec_ul_tile latY ((south, west), (north, east)) zoom).x
        ≤ (spec_lr_tile latY ((south, west), (north, east)) zoom).x :=
      le_trans hx1 hx2
    have hyle : (spec_ul_tile latY ((south, west), (north, east)) zoom).y
        ≤ (spec_lr_tile latY ((south, west), (north, east)) zoom).y :=
      le_trans hy1 hy2
    have hulmem : (⟨(spec_ul_tile latY ((south, west), (north, east)) zoom).x,
        (spec_ul_tile latY ((south, west), (north, east)) zoom).y, zoom⟩ : Tile) ∈ ts := by
      rw [hts]
      exact (mem_mtTiles hwe').mpr ⟨le_refl _, hxle, le_refl _, hyle, rfl⟩
    have hlrmem : (⟨(spec_lr_tile latY ((south, west), (north, east)) zoom).x,
        (spec_lr_tile latY ((south, west), (north, east)) zoom).y, zoom⟩ : Tile) ∈ ts := by
      rw [hts]
      exact (mem_mtTiles hwe').mpr ⟨hxle, le_refl _, hyle, le_refl _, rfl⟩
    have hminx : listMin (ts.map Tile.x)
        = some (spec_ul_tile latY ((south, west), (north, east)) zoom).x := by
      apply listMin_eq_of_mem_of_le
      · exact List.mem_map.mpr ⟨_, hulmem, rfl⟩
      · intro v hv
        obtain ⟨t', ht', rfl⟩ := List.mem_map.mp hv
        exact ((mem_mtTiles hwe').mp (hts ▸ ht')).1
    have hmaxx : listMax (ts.map Tile.x)
        = some (spec_lr_tile latY ((south, west), (north, east)) zoom).x := by
      apply listMax_eq_of_mem_of_ge
      · exact List.mem_map.mpr ⟨_, hlrmem, rfl⟩
      · intro v hv
        obtain ⟨t', ht', rfl⟩ := List.mem_map.mp hv
        exact ((mem_mtTiles hwe').mp (hts ▸ ht')).2.1
    have hminy : listMin (ts.map Tile.y)
        = some (spec_ul_tile latY ((south, west), (north, east)) zoom).y := by
      apply listMin_eq_of_mem_of_le
      · exact List.mem_map.mpr ⟨_, hulmem, rfl⟩
      · intro v hv
        obtain ⟨t', ht', rfl⟩ := List.mem_map.mp hv
        exact ((mem_mtTiles hwe').mp (hts ▸ ht')).2.2.1
    have hmaxy : listMax (ts.map Tile.y)
        = some (spec_lr_tile latY ((south, west), (north, east)) zoom).y := by
      apply listMax_eq_of_mem_of_ge
      · exact List.mem_map.mpr ⟨_, hlrmem, rfl⟩
      · intro v hv
        obtain ⟨t', ht', rfl⟩ := List.mem_map.mp hv
        exact ((mem_mtTiles hwe').mp (hts ▸ ht')).2.2.2.1
    rw [hminx, hmaxx, hminy, hmaxy] at h
    exact (Option.some_inj.mp h).symm

/-- An `Except` is `isOk` exactly when it is an `ok`. -/
theorem except_isOk_iff {ε α : Type} (r : Except ε α) :
    r.isOk = true ↔ ∃ c, r = .ok c := by
  cases r <;> simp [Except.isOk, Except.toBool]

/-- Elimination principle for a successful run of
`_create_nonstandalone_tiles_chart`: the zoom validation passed, the
index-bounds step produced some bounds, and the result is the chart built
from them. -/
theorem create_nonstandalone_ok_elim {latY : Frac → Frac} {p : TileProvider}
    {zoom : Option ZoomVal} {a : AttributionArg} {w h : Option ℤ} {r : String}
    {c : TilesChart}
    (hok : _create_nonstandalone_tiles_chart latY p zoom a w h r = .ok c) :
    ∃ ib, _index_bounds_step latY p (_evaluated_zoom_ceil zoom) = .ok ib
      ∧ c = _mk_tiles_chart p zoom a w h r ib
      ∧ (match _evaluated_zoom_ceil zoom with
         | some z => _validate_zoom z p
         | Option.none => Except.ok ()) = .ok () := by
  unfold _create_nonstandalone_tiles_chart at hok
  split at hok
  · cases hok
  · split at hok
    · cases hok
    · rename_i hval _ ib hib
      refine ⟨ib, hib, (Except.ok.injEq _ _ ▸ hok).symm, ?_⟩
      rcases hm : (match _evaluated_zoom_ceil zoom with
         | some z => _validate_zoom z p
         | Option.none => Except.ok ()) with e | u
      · rw [hm] at hval
        cases hval
      · rw [hm]

/-- Introduction principle for a successful run of
`_create_nonstandalone_tiles_chart`. -/
theorem create_nonstandalone_ok_intro (latY : Frac → Frac) (p : TileProvider)
    (zoom : Option ZoomVal) (a : AttributionArg) (w h : Option ℤ) (r : String)
    (ib : IndexBounds)
    (hval : (match _evaluated_zoom_ceil zoom with
             | some z => _validate_zoom z p
             | Option.none => Except.ok ()) = .ok ())
    (hib : _index_bounds_step latY p (_evaluated_zoom_ceil zoom) = .ok ib) :
    _create_nonstandalone_tiles_chart latY p zoom a w h r
      = .ok (_mk_tiles_chart p zoom a w h r ib) := by
  unfold _create_nonstandalone_tiles_chart
  rw [hval, hib]

/-- C1: for every call that supplies a concrete integer zoom `z` (so the
ceiled zoom is evaluable at planning time) and emits a chart, the emitted
one-side grid size equals `min(2 ** z + 2, 20)`; for every call without an
evaluable zoom that emits a chart, it equals the fixed fallback 20. -/
theorem claim_C1 (latY : Frac → Frac) (p : TileProvider) (a : AttributionArg)
    (w h : Option ℤ) (r : String) :
    (∀ z : ℤ, (create_tiles_chart latY p (.int z) a w h r).isOk = true →
      gridSizeOf (create_tiles_chart latY p (.int z) a w h r)
        = some (min (Frac.pow2 z + 2) 20))
    ∧ ((create_tiles_chart latY p .none a w h r).isOk = true →
      gridSizeOf (create_tiles_chart latY p .none a w h r) = some 20) := by
  constructor
  · intro z hok
    obtain ⟨c, hc⟩ := (except_isOk_iff _).mp hok
    have hc' : _create_nonstandalone_tiles_chart latY p (some (.int z)) a w h r
        = .ok c := hc
    obtain ⟨ib, _, hceq, _⟩ := create_nonstandalone_ok_elim hc'
    rw [hc]
    simp [gridSizeOf, Except.toOption, hceq, _mk_tiles_chart,
      _calculate_one_side_grid_size, _evaluated_zoom_ceil, ZoomVal.ceilInt]
  · intro hok
    obtain ⟨c, hc⟩ := (except_isOk_iff _).mp hok
    have hc' : _create_nonstandalone_tiles_chart latY p Option.none a w h r
        = .ok c := hc
    obtain ⟨ib, _, hceq, _⟩ := create_nonstandalone_ok_elim hc'
    rw [hc]
    simp [gridSizeOf, Except.toOption, hceq, _mk_tiles_chart,
      _calculate_one_side_grid_size, _evaluated_zoom_ceil]

/-- Witness for C1 at a concrete provider, zoom 2, and a zoom-less call. -/
theorem claim_C1_witness :
    gridSizeOf (create_tiles_chart latY0 osm (.int 2) (.bool true) Option.none
        Option.none "ab")
      = some (min (Frac.pow2 2 + 2) 20)
    ∧ gridSizeOf (create_tiles_chart latY0 osm .none (.bool true) Option.none
        Option.none "ab")
      = some 20 :=
  ⟨(claim_C1 latY0 osm (.bool true) Option.none Option.none "ab").1 2 (by decide),
   (claim_C1 latY0 osm (.bool true) Option.none Option.none "ab").2 (by decide)⟩

/-- C2: planning with an explicit integer zoom succeeds (for a provider
without geographic bounds) exactly when the zoom lies in
`[min_zoom, max_zoom]`, with default lower bound 0 and default upper
bound 30 when the provider declares none; outside that range it fails
with the zoom-out-of-range error (for every provider), in particular at
`min_zoom - 1` and `max_zoom + 1`. -/
theorem claim_C2 (latY : Frac → Frac) (p : TileProvider) (a : AttributionArg)
    (w h : Option ℤ) (r : String) (z : ℤ) :
    (p.bounds = Option.none →
      ((create_tiles_chart latY p (.int z) a w h r).isOk = true
        ↔ (p.min_zoom.getD 0 ≤ z ∧ z ≤ p.max_zoom.getD 30)))
    ∧ ((z < p.min_zoom.getD 0 ∨ p.max_zoom.getD 30 < z) →
      create_tiles_chart latY p (.int z) a w h r
        = .error (.zoomOutOfRange z (p.min_zoom.getD 0) (p.max_zoom.getD 30)
            p.max_zoom.isSome)) := by
  have hv : _validate_zoom z p
      = if p.min_zoom.getD 0 ≤ z ∧ z ≤ p.max_zoom.getD 30 then Except.ok ()
        else .error (.zoomOutOfRange z (p.min_zoom.getD 0) (p.max_zoom.getD 30)
          p.max_zoom.isSome) := by
    unfold _validate_zoom
    cases p.max_zoom <;> simp
  constructor
  · intro hb
    constructor
    · intro hok
      obtain ⟨c, hc⟩ := (except_isOk_iff _).mp hok
      have hc' : _create_nonstandalone_tiles_chart latY p (some (.int z)) a w h r
          = .ok c := hc
      obtain ⟨ib, hib, hceq, hval⟩ := create_nonstandalone_ok_elim hc'
      have hval' : _validate_zoom z p = .ok () := hval
      rw [hv] at hval'
      by_cases hcond : p.min_zoom.getD 0 ≤ z ∧ z ≤ p.max_zoom.getD 30
      · exact hcond
      · rw [if_neg hcond] at hval'
        cases hval'
    · intro hcond
      have hval : (match _evaluated_zoom_ceil (some (ZoomVal.int z)) with
          | some zz => _validate_zoom zz p
          | Option.none => Except.ok ()) = .ok () := by
        show _validate_zoom z p = .ok ()
        rw [hv, if_pos hcond]
      have hib : _index_bounds_step latY p (_evaluated_zoom_ceil (some (.int z)))
          = .ok default_index_bounds := by
        unfold _index_bounds_step
        rw [hb]
      have hplan := create_nonstandalone_ok_intro latY p (some (.int z)) a w h r
        default_index_bounds hval hib
      show (_create_nonstandalone_tiles_chart latY p (some (.int z)) a w h r).isOk
        = true
      rw [hplan]
      rfl
  · intro hcond
    show _create_nonstandalone_tiles_chart latY p (some (.int z)) a w h r = _
    unfold _create_nonstandalone_tiles_chart
    have hval : (match _evaluated_zoom_ceil (some (ZoomVal.int z)) with
        | some zz => _validate_zoom zz p
        | Option.none => Except.ok ())
        = Except.error (TileError.zoomOutOfRange z (p.min_zoom.getD 0)
            (p.max_zoom.getD 30) p.max_zoom.isSome) := by
      show _validate_zoom z p = _
      rw [hv, if_neg (by omega)]
    rw [hval]

/-- Witness for C2: a provider declaring `min_zoom=2, max_zoom=5` succeeds
at zoom 3 and fails with the range error at zooms 1 and 6. -/
theorem claim_C2_witness :
    (create_tiles_chart latY0 provMinMax (.int 3) (.bool true) Option.none
      Option.none "ab").isOk = true
    ∧ create_tiles_chart latY0 provMinMax (.int 1) (.bool true) Option.none
        Option.none "ab" = .error (.zoomOutOfRange 1 2 5 true)
    ∧ create_tiles_chart latY0 provMinMax (.int 6) (.bool true) Option.none
        Option.none "ab" = .error (.zoomOutOfRange 6 2 5 true) :=
  ⟨((claim_C2 latY0 provMinMax (.bool true) Option.none Option.none "ab" 3).1
      rfl).mpr (by decide),
   (claim_C2 latY0 provMinMax (.bool true) Option.none Option.none "ab" 1).2
      (by decide),
   (claim_C2 latY0 provMinMax (.bool true) Option.none Option.none "ab" 6).2
      (by decide)⟩

/-- For a provider without bounds, a successful plan carries the default
index bounds. -/
theorem plan_index_bounds_boundless {latY : Frac → Frac} {p : TileProvider}
    {zoom : Option ZoomVal} {a : AttributionArg} {w h : Option ℤ} {r : String}
    {c : TilesChart} (hb : p.bounds = Option.none)
    (hc : _create_nonstandalone_tiles_chart latY p zoom a w h r = .ok c) :
    c.index_bounds = default_index_bounds := by
  obtain ⟨ib, hib, hceq, _⟩ := create_nonstandalone_ok_elim hc
  unfold _index_bounds_step at hib
  rw [hb] at hib
  cases hib
  rw [hceq]
  rfl

/-- For a provider with bounds and an evaluable zoom, a successful plan
carries the literal index bounds computed by `_bounds_to_x_y_min_max`. -/
theorem plan_index_bounds_bounded (latY : Frac → Frac) (p : TileProvider)
    (bb : (Frac × Frac) × (Frac × Frac)) (zoom : Option ZoomVal) (zz : ℤ)
    (a : AttributionArg) (w h : Option ℤ) (r : String) (c : TilesChart)
    (hb : p.bounds = some bb) (hz : _evaluated_zoom_ceil zoom = some zz)
    (hc : _create_nonstandalone_tiles_chart latY p zoom a w h r = .ok c) :
    ∃ m, _bounds_to_x_y_min_max latY bb zz = some m
      ∧ c.index_bounds = ⟨.lit m.x_min, .lit m.x_max, .lit m.y_min, .lit m.y_max⟩ := by
  obtain ⟨ib, hib, hceq, _⟩ := create_nonstandalone_ok_elim hc
  unfold _index_bounds_step at hib
  rw [hb, hz] at hib
  dsimp only at hib
  rcases hm : _bounds_to_x_y_min_max latY bb zz with m | m
  · rw [hm] at hib
    cases hib
  · rw [hm] at hib
    cases hib
    exact ⟨m, rfl, by rw [hceq]; rfl⟩

/-- C3: the emitted index-bounds filter constrains tile-x and tile-y to
`[0, max_one_side_tiles_count - 1]` (the symbolic `tilesPerSide - 1`)
when the provider declares no geographic bounds; for a provider declaring
bounds (not crossing the antimeridian) together with a concrete integer
zoom, the filter's literal min/max equal the corner tile indices obtained
by converting the bounding box with the standard slippy-map tile formula
(the extremes of the standard tile enumeration). -/
theorem claim_C3 (latY : Frac → Frac) (p : TileProvider) (a : AttributionArg)
    (w h : Option ℤ) (r : String) :
    (∀ zArg : PyZoom, p.bounds = Option.none →
      (create_tiles_chart latY p zArg a w h r).isOk = true →
      indexBoundsOf (create_tiles_chart latY p zArg a w h r)
        = some default_index_bounds)
    ∧ (∀ (bb : (Frac × Frac) × (Frac × Frac)) (z : ℤ), p.bounds = some bb →
      ¬ bb.2.2 < bb.1.2 →
      (create_tiles_chart latY p (.int z) a w h r).isOk = true →
      indexBoundsOf (create_tiles_chart latY p (.int z) a w h r)
        = some ⟨.lit (spec_ul_tile latY bb z).x, .lit (spec_lr_tile latY bb z).x,
                .lit (spec_ul_tile latY bb z).y, .lit (spec_lr_tile latY bb z).y⟩) := by
  constructor
  · intro zArg hb hok
    cases zArg with
    | str s => simp [create_tiles_chart, Except.isOk, Except.toBool] at hok
    | none =>
      obtain ⟨c, hc⟩ := (except_isOk_iff _).mp hok
      have hc' : _create_nonstandalone_tiles_chart latY p Option.none a w h r
          = .ok c := hc
      rw [hc]
      simp only [indexBoundsOf, Except.toOption, Option.map]
      rw [plan_index_bounds_boundless hb hc']
    | int z =>
      obtain ⟨c, hc⟩ := (except_isOk_iff _).mp hok
      have hc' : _create_nonstandalone_tiles_chart latY p (some (.int z)) a w h r
          = .ok c := hc
      rw [hc]
      simp only [indexBoundsOf, Except.toOption, Option.map]
      rw [plan_index_bounds_boundless hb hc']
    | bool b =>
      obtain ⟨c, hc⟩ := (except_isOk_iff _).mp hok
      have hc' : _create_nonstandalone_tiles_chart latY p (some (.bool b)) a w h r
          = .ok c := hc
      rw [hc]
      simp only [indexBoundsOf, Except.toOption, Option.map]
      rw [plan_index_bounds_boundless hb hc']
  · intro bb z hb hwe hok
    obtain ⟨c, hc⟩ := (except_isOk_iff _).mp hok
    have hc' : _create_nonstandalone_tiles_chart latY p (some (.int z)) a w h r
        = .ok c := hc
    obtain ⟨m, hm, hcib⟩ := plan_index_bounds_bounded latY p bb (some (.int z)) z
      a w h r c hb rfl hc'
    have hcorners := bounds_to_x_y_min_max_eq_corners hwe hm
    rw [hc]
    simp only [indexBoundsOf, Except.toOption, Option.map]
    rw [hcib, hcorners]

/-- Witness for C3: the boundless provider gets the default bounds, and the
bounded provider `[[40, 5], [50, 10]]` at zoom 3 gets the corner tile
indices (4, 1) and (4, 2). -/
theorem claim_C3_witness :
    indexBoundsOf (create_tiles_chart latY0 osm (.int 2) (.bool true)
        Option.none Option.none "ab") = some default_index_bounds
    ∧ indexBoundsOf (create_tiles_chart latY0 provBounded (.int 3) (.bool false)
        Option.none Option.none "ab")
      = some ⟨.lit 4, .lit 4, .lit 1, .lit 2⟩ :=
  ⟨(claim_C3 latY0 osm (.bool true) Option.none Option.none "ab").1 (.int 2) rfl
      (by decide),
   (claim_C3 latY0 provBounded (.bool false) Option.none Option.none "ab").2
      ((40, 5), (50, 10)) 3 rfl (by decide) (by decide)⟩

/-- C5: for every provider declaring geographic bounds, planning without a
zoom argument (so no concrete zoom is resolvable) fails with the
unresolved-zoom error; with a concrete integer zoom in the provider's
range it never fails with that error. -/
theorem claim_C5 (latY : Frac → Frac) (p : TileProvider) (a : AttributionArg)
    (w h : Option ℤ) (r : String) :
    (∀ bb, p.bounds = some bb →
      create_tiles_chart latY p .none a w h r
        = .error .unresolvedZoomForBoundedProvider)
    ∧ (∀ bb z, p.bounds = some bb → p.min_zoom.getD 0 ≤ z →
      z ≤ p.max_zoom.getD 30 →
      create_tiles_chart latY p (.int z) a w h r
        ≠ .error .unresolvedZoomForBoundedProvider) := by
  constructor
  · intro bb hb
    show _create_nonstandalone_tiles_chart latY p Option.none a w h r = _
    unfold _create_nonstandalone_tiles_chart
    have h2 : _index_bounds_step latY p (_evaluated_zoom_ceil Option.none)
        = .error .unresolvedZoomForBoundedProvider := by
      unfold _index_bounds_step
      rw [hb]
      rfl
    rw [h2]
    rfl
  · intro bb z hb hmin hmax heq
    have heq' : _create_nonstandalone_tiles_chart latY p (some (.int z)) a w h r
        = .error .unresolvedZoomForBoundedProvider := heq
    unfold _create_nonstandalone_tiles_chart at heq'
    have hval : (match _evaluated_zoom_ceil (some (ZoomVal.int z)) with
        | some zz => _validate_zoom zz p
        | Option.none => Except.ok ()) = .ok () := by
      show _validate_zoom z p = .ok ()
      unfold _validate_zoom
      cases hmz : p.max_zoom with
      | none =>
        rw [hmz] at hmax
        simp only [Option.getD] at hmin hmax ⊢
        rw [if_pos ⟨hmin, hmax⟩]
      | some mz =>
        rw [hmz] at hmax
        simp only [Option.getD] at hmin hmax ⊢
        rw [if_pos ⟨hmin, hmax⟩]
    rw [hval] at heq'
    dsimp only at heq'
    rcases hie : _index_bounds_step latY p (_evaluated_zoom_ceil (some (ZoomVal.int z)))
      with e | ib
    · rw [hie] at heq'
      dsimp only at heq'
      cases heq'
      unfold _index_bounds_step at hie
      rw [hb] at hie
      have hz : _evaluated_zoom_ceil (some (ZoomVal.int z)) = some z := rfl
      rw [hz] at hie
      dsimp only at hie
      rcases hm : _bounds_to_x_y_min_max latY bb z with m | m
      · rw [hm] at hie
        cases hie
      · rw [hm] at hie
        cases hie
    · rw [hie] at heq'
      dsimp only at heq'
      cases heq'

/-- Witness for C5 at the bounded provider `[[40, 5], [50, 10]]`. -/
theorem claim_C5_witness :
    create_tiles_chart latY0 provBounded .none (.bool false) Option.none
      Option.none "ab" = .error .unresolvedZoomForBoundedProvider
    ∧ create_tiles_chart latY0 provBounded (.int 3) (.bool false) Option.none
      Option.none "ab" ≠ .error .unresolvedZoomForBoundedProvider :=
  ⟨(claim_C5 latY0 provBounded (.bool false) Option.none Option.none "ab").1
      ((40, 5), (50, 10)) rfl,
   (claim_C5 latY0 provBounded (.bool false) Option.none Option.none "ab").2
      ((40, 5), (50, 10)) 3 rfl (by decide) (by decide)⟩

/-- C7: a zoom argument that is neither `None` nor an integer (here, any
string) makes planning fail with the invalid-zoom-type error, regardless
of all other inputs. -/
theorem claim_C7 (latY : Frac → Frac) (p : TileProvider) (s : String)
    (a : AttributionArg) (w h : Option ℤ) (r : String) :
    create_tiles_chart latY p (.str s) a w h r = .error .invalidZoomType := rfl

/-- C8: `add_attribution` resolves the final text as the provider default
for `true`, the given string for a string, and nothing for `false`, and
appends the bottom-left anchored text layer (`attribution_mark`) exactly
when the resolved text is non-empty; otherwise it returns the chart
unchanged. -/
theorem claim_C8 (chart : List ChartLayer) (p : TileProvider)
    (a : AttributionArg) :
    add_attribution chart p a
      = (match spec_attribution_text a p with
         | some s =>
             if s = "" then chart
             else chart ++ [ChartLayer.text (attribution_mark s)]
         | Option.none => chart) := by
  cases a with
  | bool b =>
    cases b with
    | true =>
      unfold add_attribution chart_attribution_layer _attribution_text
        spec_attribution_text AttributionArg.truthy
      cases hp : p.attribution with
      | none => simp
      | some t =>
        by_cases ht : t = ""
        · subst ht
          simp
        · simp [ht]
    | false =>
      unfold add_attribution chart_attribution_layer _attribution_text
        spec_attribution_text AttributionArg.truthy
      simp
  | str s =>
    unfold add_attribution chart_attribution_layer _attribution_text
      spec_attribution_text AttributionArg.truthy
    by_cases hs : s = ""
    · subst hs
      simp
    · simp [hs]

/-- C4: in `add_basemap` (the variant that reads the projection from the
chart), a chart with a Mercator projection but no scale set and no zoom
makes the call fail with the scale-related error before any tile geometry
is built. -/
theorem claim_C4 (src : TileProvider) (gc gr : ℤ) (c : InputChart)
    (pr : Projection) (h1 : c.projection = some pr)
    (h2 : pr.ptype = some "mercator") (h3 : pr.scale = Option.none) :
    add_basemap (.chart c) src .none gc gr = .error .missingScale := by
  have hv : _validate_chart c = .error .missingScale := by
    unfold _validate_chart
    rw [h1]
    dsimp only
    rw [h2]
    simp only [bne_self_eq_false, Bool.false_eq_true, if_false]
    rw [h3]
  unfold add_basemap
  dsimp only
  rw [hv]

/-- Witness for C4 at a concrete chart with a Mercator projection and no
scale. -/
theorem claim_C4_witness :
    add_basemap (.chart chartNoScale) osm .none 10 10 = .error .missingScale :=
  claim_C4 osm 10 10 chartNoScale
    { ptype := some "mercator", scale := Option.none } rfl rfl rfl

/-- C9 (recording the code bug): `add_tiles` performs no validation of the
input chart, so overlaying tiles onto a chart whose mark is `bar` (not a
geoshape) succeeds and produces a two-layer chart with the tile layer
first, although the function's docstring and the test suite promise a
`ValueError` for such charts. -/
theorem claim_C9 :
    (add_tiles latY0 (.chart chartBarMark) osm .none (.bool false) Option.none
      Option.none "ab").isOk = true
    ∧ (add_tiles latY0 (.chart chartBarMark) osm .none (.bool false) Option.none
        Option.none "ab").toOption.map List.length = some 2 :=
  ⟨by decide, by decide⟩

/-- The plan is independent of the randomization token once the tile-list
name is erased. -/
theorem plan_strip_token (latY : Frac → Frac) (p : TileProvider)
    (zoom : Option ZoomVal) (a : AttributionArg) (w h : Option ℤ)
    (r1 r2 : String) :
    Except.map strip_tile_list_name
        (_create_nonstandalone_tiles_chart latY p zoom a w h r1)
      = Except.map strip_tile_list_name
        (_create_nonstandalone_tiles_chart latY p zoom a w h r2) := by
  unfold _create_nonstandalone_tiles_chart
  rcases hval : (match _evaluated_zoom_ceil zoom with
      | some z => _validate_zoom z p
      | Option.none => Except.ok ()) with e | u
  · rw [hval]
    try rfl
  · rw [hval]
    dsimp only
    rcases hib : _index_bounds_step latY p (_evaluated_zoom_ceil zoom) with e | ib
    · rfl
    · rfl

/-- The tile-list name of a successful plan is `tile_list_` followed by the
randomization token. -/
theorem plan_token_name (latY : Frac → Frac) (p : TileProvider)
    (zoom : Option ZoomVal) (a : AttributionArg) (w h : Option ℤ) (r : String) :
    (_create_nonstandalone_tiles_chart latY p zoom a w h r).toOption.map
        TilesChart.tile_list_name
      = (_create_nonstandalone_tiles_chart latY p zoom a w h r).toOption.map
        (fun _ => "tile_list_" ++ r) := by
  unfold _create_nonstandalone_tiles_chart
  rcases hval : (match _evaluated_zoom_ceil zoom with
      | some z => _validate_zoom z p
      | Option.none => Except.ok ()) with e | u
  · rw [hval]
    try rfl
  · rw [hval]
    dsimp only
    rcases hib : _index_bounds_step latY p (_evaluated_zoom_ceil zoom) with e | ib
    · rfl
    · rfl

/-- C6: calls with identical inputs differ at most in the randomized
tile-list data-source name: after erasing that name the whole emitted
chart fragment (parameter graph, per-cell expressions, both filters, grid
size, attribution layer) is identical across two runs with different
randomization tokens, and the name itself is `tile_list_` plus the token,
which occurs in no other field. -/
theorem claim_C6 (latY : Frac → Frac) (p : TileProvider) (zArg : PyZoom)
    (a : AttributionArg) (w h : Option ℤ) (r1 r2 : String) :
    Except.map strip_tile_list_name (create_tiles_chart latY p zArg a w h r1)
      = Except.map strip_tile_list_name (create_tiles_chart latY p zArg a w h r2)
    ∧ (create_tiles_chart latY p zArg a w h r1).toOption.map
        TilesChart.tile_list_name
      = (create_tiles_chart latY p zArg a w h r1).toOption.map
        (fun _ => "tile_list_" ++ r1) := by
  cases zArg with
  | str s => exact ⟨rfl, rfl⟩
  | none =>
    exact ⟨plan_strip_token latY p Option.none a w h r1 r2,
      plan_token_name latY p Option.none a w h r1⟩
  | int z =>
    exact ⟨plan_strip_token latY p (some (.int z)) a w h r1 r2,
      plan_token_name latY p (some (.int z)) a w h r1⟩
  | bool b =>
    exact ⟨plan_strip_token latY p (some (.bool b)) a w h r1 r2,
      plan_token_name latY p (some (.bool b)) a w h r1⟩

/-- `_validate_zoom` never raises the invalid-zoom-type error. -/
theorem validate_zoom_ne_invalid (z : ℤ) (p : TileProvider) :
    _validate_zoom z p ≠ .error .invalidZoomType := by
  unfold _validate_zoom
  intro hval
  by_cases hc : (p.min_zoom.getD 0 ≤ z
      ∧ z ≤ (match p.max_zoom with
             | some m => ((m, true) : ℤ × Bool)
             | Option.none => (30, false)).1)
  · rw [if_pos hc] at hval
    cases hval
  · rw [if_neg hc] at hval
    cases hval

/-- The tile-planning pipeline never raises the invalid-zoom-type error
(that error is only raised by the type check in `create_tiles_chart`). -/
theorem plan_no_invalid_zoom_type (latY : Frac → Frac) (p : TileProvider)
    (zoom : Option ZoomVal) (a : AttributionArg) (w h : Option ℤ) (r : String) :
    _create_nonstandalone_tiles_chart latY p zoom a w h r
      ≠ .error .invalidZoomType := by
  intro heq
  unfold _create_nonstandalone_tiles_chart at heq
  rcases hval : (match _evaluated_zoom_ceil zoom with
      | some z => _validate_zoom z p
      | Option.none => Except.ok ()) with e | u
  · rw [hval] at heq
    dsimp only at heq
    cases heq
    rcases hz : _evaluated_zoom_ceil zoom with _ | z
    · rw [hz] at hval
      cases hval
    · rw [hz] at hval
      dsimp only at hval
      exact validate_zoom_ne_invalid z p hval
  · rw [hval] at heq
    dsimp only at heq
    rcases hib : _index_bounds_step latY p (_evaluated_zoom_ceil zoom) with e | ib
    · rw [hib] at heq
      dsimp only at heq
      cases heq
      unfold _index_bounds_step at hib
      rcases hb : p.bounds with _ | bb
      · rw [hb] at hib
        cases hib
      · rw [hb] at hib
        dsimp only at hib
        rcases hz : _evaluated_zoom_ceil zoom with _ | z
        · rw [hz] at hib
          cases hib
        · rw [hz] at hib
          dsimp only at hib
          rcases hm : _bounds_to_x_y_min_max latY bb z with m | m
          · rw [hm] at hib
            cases hib
          · rw [hm] at hib
            cases hib
    · rw [hib] at heq
      dsimp only at heq
      cases heq

/-- C10: a Python `bool` passed as the zoom argument passes the
`isinstance(zoom, int)` check, and planning proceeds exactly as with the
integer zoom `1` (for `True`) or `0` (for `False`) except that the
`zoom_level` parameter records the boolean literal; in particular no
invalid-zoom-type error is raised. -/
theorem claim_C10 (latY : Frac → Frac) (p : TileProvider) (a : AttributionArg)
    (w h : Option ℤ) (r : String) (b : Bool) :
    create_tiles_chart latY p (.bool b) a w h r
      = Except.map (set_zoom_level_lit (.bool b))
          (create_tiles_chart latY p (.int (cond b 1 0)) a w h r)
    ∧ create_tiles_chart latY p (.bool b) a w h r ≠ .error .invalidZoomType := by
  constructor
  · show _create_nonstandalone_tiles_chart latY p (some (.bool b)) a w h r
      = Except.map (set_zoom_level_lit (.bool b))
          (_create_nonstandalone_tiles_chart latY p (some (.int (cond b 1 0)))
            a w h r)
    unfold _create_nonstandalone_tiles_chart
    have hz1 : _evaluated_zoom_ceil (some (ZoomVal.bool b)) = some (cond b 1 0) :=
      rfl
    have hz2 : _evaluated_zoom_ceil (some (ZoomVal.int (cond b 1 0)))
        = some (cond b 1 0) := rfl
    rw [hz1, hz2]
    dsimp only
    rcases hval : _validate_zoom (cond b 1 0) p with e | u
    · rfl
    · dsimp only
      rcases hib : _index_bounds_step latY p (some (cond b 1 0)) with e | ib
      · rfl
      · rfl
  · exact fun heq =>
      plan_no_invalid_zoom_type latY p (some (.bool b)) a w h r heq

/-- Witness for C10: at a concrete provider, planning with `zoom=True`
coincides (up to the recorded literal) with planning at zoom 1 and does
not raise the invalid-zoom-type error. -/
theorem claim_C10_witness :
    create_tiles_chart latY0 osm (.bool true) (.bool true) Option.none
        Option.none "ab"
      = Except.map (set_zoom_level_lit (.bool true))
          (create_tiles_chart latY0 osm (.int 1) (.bool true) Option.none
            Option.none "ab")
    ∧ create_tiles_chart latY0 osm (.bool true) (.bool true) Option.none
        Option.none "ab" ≠ .error .invalidZoomType :=
  ⟨(claim_C10 latY0 osm (.bool true) Option.none Option.none "ab" true).1,
   (claim_C10 latY0 osm (.bool true) Option.none Option.none "ab" true).2⟩

end AltairTiles
